import Mathlib

/-!
Shallow embedding of the MNIST digit-collector backend (src/app.py) and
proofs about its specification.

The program is a small HTTP service with one write endpoint, save_digit,
which normalizes an uploaded image and uploads it to the remote object
storage bucket named "digits", and four read endpoints (get_stats,
list_files, download_zip, download_numpy) which iterate the ten local
directories dataset/0 .. dataset/9.

Modelling choices:
  - PIL images are modelled by their metadata (width, height, mode) plus
    an instrumentation field recording which resampling filter produced
    them; the pixel arithmetic of the PIL library is not repository code.
  - The local filesystem is a map from the digit (the loop index of
    range(10)) to an optional directory listing (none models a directory
    that does not exist, matching the os.path.exists checks).
  - The remote storage is a map from bucket name to a list of
    (key, image) objects; the possible error return of the supabase client is
    an explicit parameter, as are the timestamp and the uuid suffix.
  - The Python built-ins str.isdigit and int consult the Unicode tables
    of the interpreter; they are modelled parametrically in those tables
    (structure PyUnicode), with the facts every Unicode version
    guarantees pinned, and int is partial (ValueError becomes none).
-/

/-- Resampling filters of the PIL library that are relevant here. -/
inductive Resample where
  | nearest
  | bilinear
  | bicubic
deriving Repr, DecidableEq

/-- A decoded PIL image: pixel-grid metadata plus an instrumentation field
recording the last resampling filter applied (none for a freshly decoded
image). -/
structure Image where
  width : Nat
  height : Nat
  mode : String
  lastResample : Option Resample := none
deriving Repr, DecidableEq

/-- The PIL img.size, the (width, height) pair. -/
def Image.size (img : Image) : Nat × Nat := (img.width, img.height)

/-- The PIL img.convert with mode L: single-channel luminance, size kept. -/
def Image.convertL (img : Image) : Image :=
  { img with mode := "L" }

/-- The PIL img.resize to the given size with the given filter. -/
def Image.resizeTo (img : Image) (w h : Nat) (r : Resample) : Image :=
  { img with width := w, height := h, lastResample := some r }

/-- Image normalization of save_digit, src/app.py lines 45-47:
convert to 'L', then resize to (28, 28) with Image.BILINEAR when the
size differs from (28, 28). -/
def process_image (raw : Image) : Image :=
  let img := raw.convertL
  if img.size ≠ (28, 28) then img.resizeTo 28 28 Resample.bilinear else img

/-- One entry of a local directory listing: a file name and its bytes. -/
structure FileEntry where
  name : String
  content : List Nat
deriving Repr, DecidableEq

/-- The local dataset tree: for each digit-loop index, either none (the
directory does not exist) or its listing. -/
def LocalFS := Nat → Option (List FileEntry)

/-- Server state: the remote object storage (bucket name to objects) and
the local dataset tree. -/
structure ServerState where
  buckets : String → List (String × Image)
  localFS : LocalFS

/-- JSON values, for the response bodies the handlers build. -/
inductive Json where
  | str : String → Json
  | num : Nat → Json
  | bool : Bool → Json
  | arr : List Json → Json
  | obj : List (String × Json) → Json

/-- Top-level keys of a JSON object. -/
def Json.keys : Json → List String
  | .obj kvs => kvs.map Prod.fst
  | _ => []

/-- Look up a top-level key in a JSON object. -/
def Json.find : Json → String → Option Json
  | .obj kvs, k => (kvs.find? (fun p => p.1 == k)).map Prod.snd
  | _, _ => none

/-- Response bodies: JSON, or a binary file via send_file (a ZIP archive
given by its entries, or a savez_compressed container with arrays X, y). -/
inductive RespBody where
  | json : Json → RespBody
  | zipFile : List (String × List Nat) → RespBody
  | npzFile : List Image → List Nat → RespBody
  | text : String → RespBody

/-- An HTTP response: status code and body. -/
structure HttpResponse where
  status : Nat
  body : RespBody

/-- The Unicode character data that the label check of save_digit
consults, abstracted because the behaviour of the Python built-ins
str.isdigit and int is parametric in the Unicode tables of the
interpreter: decimalVal gives the value of a decimal digit character
(Numeric_Type=Decimal, what int accepts) or none, isDigitChar is the
per-character digit test of str.isdigit (decimal digits plus
Numeric_Type=Digit characters such as the superscript two). Every
Unicode version guarantees the two pinned facts: decimal digits are
digit characters, and the ASCII digits are decimal with their usual
values. -/
structure PyUnicode where
  decimalVal : Char → Option Nat
  isDigitChar : Char → Bool
  decimal_isDigit : ∀ c v, decimalVal c = some v → isDigitChar c = true
  ascii_decimal : ∀ c : Char, '0' ≤ c → c ≤ '9' → decimalVal c = some (c.toNat - 48)

/-- Python str.isdigit: nonempty and every character is a digit
character (decimal or Numeric_Type=Digit). -/
def pyIsDigit (U : PyUnicode) (s : String) : Bool :=
  s.length != 0 && s.data.all U.isDigitChar

/-- Python int() on a label string: succeeds exactly when the string is
nonempty and every character is a decimal digit, giving the base-10
value; otherwise int raises ValueError (none). Sign, whitespace and
underscore forms cannot reach this call because save_digit only invokes
int on strings whose characters all pass isdigit. -/
def pyToInt (U : PyUnicode) (s : String) : Option Nat :=
  if s.data.isEmpty then none
  else
    s.data.foldl
      (fun acc c =>
        match acc, U.decimalVal c with
        | some a, some v => some (a * 10 + v)
        | _, _ => none)
      (some 0)

/-- The ASCII fragment of the Unicode tables: a legal instantiation of
the abstract tables, used to evaluate concrete labels. -/
def asciiUnicode : PyUnicode where
  decimalVal c := if '0' ≤ c ∧ c ≤ '9' then some (c.toNat - 48) else none
  isDigitChar c := decide ('0' ≤ c ∧ c ≤ '9')
  decimal_isDigit := by
    intro c v h
    by_cases hc : '0' ≤ c ∧ c ≤ '9'
    · simp [hc]
    · simp [hc] at h
  ascii_decimal := by
    intro c h1 h2
    simp [h1, h2]

/-- A Unicode-table instance extending the ASCII fragment with the
Arabic-Indic digit three (a non-ASCII decimal digit, accepted by int)
and the superscript two (Numeric_Type=Digit but not decimal, so isdigit
accepts it and int raises), to exercise the non-ASCII validation
paths. -/
def exUnicode : PyUnicode where
  decimalVal c :=
    if '0' ≤ c ∧ c ≤ '9' then some (c.toNat - 48)
    else if c = '٣' then some 3
    else none
  isDigitChar c :=
    decide ('0' ≤ c ∧ c ≤ '9') || decide (c = '٣') || decide (c = '²')
  decimal_isDigit := by
    intro c v h
    by_cases h1 : '0' ≤ c ∧ c ≤ '9'
    · simp [h1]
    · by_cases h2 : c = '٣' <;> simp [h1, h2] at h ⊢
  ascii_decimal := by
    intro c h1 h2
    simp [h1, h2]

/-- The generated filename, src/app.py line 57:
digit_<label>_<timestamp>_<unique_id>.png. -/
def make_filename (label timestamp unique_id : String) : String :=
  "digit_" ++ label ++ "_" ++ timestamp ++ "_" ++ unique_id ++ ".png"

/-- The storage key, src/app.py line 58: <label>/<filename>. -/
def make_key (label filename : String) : String :=
  label ++ "/" ++ filename

/-- The segment of a key before the first '/'. -/
def prefixBeforeSlash (s : String) : String :=
  String.mk (s.data.takeWhile (fun c => c != '/'))

/-- An upload request: the optional image file field (none when the field
is absent, some none when the bytes are present but undecodable, so that
PIL raises) and the optional label form field. -/
structure UploadRequest where
  image : Option (Option Image)
  label : Option String

/-- The save_digit handler, src/app.py lines 32-74. The Unicode tables,
the wall-clock timestamp, the uuid suffix and the supabase error outcome
are parameters. The label test of line 41 short-circuits: when isdigit
fails the 400 is returned without calling int; when isdigit passes but
int raises ValueError (a digit string with a non-decimal digit
character), the catch-all except of line 73 answers 500. Returns the new
server state and the HTTP response. -/
def save_digit (U : PyUnicode) (st : ServerState) (req : UploadRequest)
    (timestamp unique_id : String) (uploadErr : Option String) :
    ServerState × HttpResponse :=
  match req.image, req.label with
  | none, _ =>
      (st, ⟨400, .json (.obj [("error", .str "Image and label required")])⟩)
  | some _, none =>
      (st, ⟨400, .json (.obj [("error", .str "Image and label required")])⟩)
  | some imgField, some label =>
      if pyIsDigit U label = false then
        (st, ⟨400, .json (.obj [("error", .str "Label must be 0-9")])⟩)
      else match pyToInt U label with
      | none =>
          (st, ⟨500, .json (.obj
            [("error", .str "invalid literal for int() with base 10")])⟩)
      | some labelVal =>
      if ¬ labelVal < 10 then
        (st, ⟨400, .json (.obj [("error", .str "Label must be 0-9")])⟩)
      else
        match imgField with
        | none =>
            (st, ⟨500, .json (.obj [("error", .str "cannot identify image file")])⟩)
        | some raw =>
            let img := process_image raw
            let filename := make_filename label timestamp unique_id
            let path_in_bucket := make_key label filename
            match uploadErr with
            | some msg =>
                (st, ⟨500, .json (.obj [("error", .str msg)])⟩)
            | none =>
                let newBuckets :=
                  Function.update st.buckets "digits"
                    ((path_in_bucket, img) :: st.buckets "digits")
                ({ st with buckets := newBuckets },
                 ⟨200, .json (.obj
                   [("success", .bool true),
                    ("message", .str ("Saved digit " ++ label ++ " in Supabase Storage")),
                    ("filename", .str filename),
                    ("label", .str label)])⟩)

/-- Does a listdir entry name end in ".png"? (Python str.endswith, the
filter every read endpoint applies; endswith on str is a character-suffix
check). -/
def isPng (name : String) : Bool := List.isSuffixOf (".png".data) name.data

/-- The ".png" entries of one digit directory (empty when the directory
does not exist). -/
def pngFiles (fs : LocalFS) (d : Nat) : List FileEntry :=
  match fs d with
  | some entries => entries.filter (fun f => isPng f.name)
  | none => []

/-- The ".png" entry names of one digit directory. -/
def pngNames (fs : LocalFS) (d : Nat) : List String :=
  (pngFiles fs d).map FileEntry.name

/-- Per-directory ".png" count as get_stats computes it (0 when the
directory does not exist). -/
def dirCount (fs : LocalFS) (d : Nat) : Nat :=
  match fs d with
  | some entries => (entries.filter (fun f => isPng f.name)).length
  | none => 0

/-- The loop of get_stats, src/app.py lines 80-90: builds the stats dict
(in loop order) and the running total. -/
def statsAux (fs : LocalFS) : List Nat → List (String × Nat) × Nat → List (String × Nat) × Nat
  | [], acc => acc
  | d :: rest, acc =>
      match fs d with
      | some entries =>
          let count := (entries.filter (fun f => isPng f.name)).length
          statsAux fs rest (acc.1 ++ [(toString d, count)], acc.2 + count)
      | none =>
          statsAux fs rest (acc.1 ++ [(toString d, 0)], acc.2)

/-- The stats dict and total of get_stats for digits 0..9. -/
def statsLoop (fs : LocalFS) : List (String × Nat) × Nat :=
  statsAux fs (List.range 10) ([], 0)

/-- The get_stats handler, src/app.py lines 76-98. -/
def get_stats (fs : LocalFS) : HttpResponse :=
  let s := statsLoop fs
  ⟨200, .json (.obj
    [("stats", .obj (s.1.map (fun p => (p.1, Json.num p.2)))),
     ("total", .num s.2)])⟩

/-- The loop of list_files, src/app.py lines 183-190: builds the files
dict in loop order. -/
def filesAux (fs : LocalFS) : List Nat → List (String × List String) → List (String × List String)
  | [], acc => acc
  | d :: rest, acc =>
      match fs d with
      | some entries =>
          filesAux fs rest
            (acc ++ [(toString d, (entries.filter (fun f => isPng f.name)).map FileEntry.name)])
      | none =>
          filesAux fs rest (acc ++ [(toString d, [])])

/-- The files dict of list_files for digits 0..9. -/
def filesLoop (fs : LocalFS) : List (String × List String) :=
  filesAux fs (List.range 10) []

/-- The list_files handler, src/app.py lines 179-200: responds with
a JSON object holding the files dict under "files" and the flattened
count under "total". -/
def list_files (fs : LocalFS) : HttpResponse :=
  let files := filesLoop fs
  let total := (files.map (fun p => p.2.length)).sum
  ⟨200, .json (.obj
    [("files", .obj (files.map (fun p => (p.1, Json.arr (p.2.map Json.str))))),
     ("total", .num total)])⟩

/-- The archive entries the download_zip loop writes for one list of
digits: for each digit in order, each ".png" file becomes the entry
(<digit>/<filename>, file bytes). -/
def zipFlat (fs : LocalFS) : List Nat → List (String × List Nat)
  | [] => []
  | d :: rest =>
      (pngFiles fs d).map (fun f => (toString d ++ "/" ++ f.name, f.content))
        ++ zipFlat fs rest

/-- The loop of download_zip, src/app.py lines 109-119, in accumulator
form mirroring the archive being appended to. -/
def zipAux (fs : LocalFS) : List Nat → List (String × List Nat) → List (String × List Nat)
  | [], acc => acc
  | d :: rest, acc =>
      match fs d with
      | some entries =>
          zipAux fs rest
            (acc ++ (entries.filter (fun f => isPng f.name)).map
              (fun f => (toString d ++ "/" ++ f.name, f.content)))
      | none => zipAux fs rest acc

/-- The archive entries of download_zip for digits 0..9. -/
def zipEntries (fs : LocalFS) : List (String × List Nat) :=
  zipAux fs (List.range 10) []

/-- The download_zip handler, src/app.py lines 102-134. -/
def download_zip (fs : LocalFS) : HttpResponse :=
  ⟨200, .zipFile (zipEntries fs)⟩

/-- The inner loop of download_numpy over the ".png" files of one directory:
decode each (Image.open + convert('L')), appending the image to X and the
current label to y; none models the exception path when a decode fails. -/
def numpyInner (decode : List Nat → Option Image) (label : Nat) :
    List FileEntry → List Image × List Nat → Option (List Image × List Nat)
  | [], acc => some acc
  | f :: rest, acc =>
      match decode f.content with
      | none => none
      | some raw =>
          numpyInner decode label rest (acc.1 ++ [raw.convertL], acc.2 ++ [label])

/-- The outer loop of download_numpy over the digit list. -/
def numpyOuter (decode : List Nat → Option Image) (fs : LocalFS) :
    List Nat → List Image × List Nat → Option (List Image × List Nat)
  | [], acc => some acc
  | d :: rest, acc =>
      match numpyInner decode d (pngFiles fs d) acc with
      | none => none
      | some acc2 => numpyOuter decode fs rest acc2

/-- The X, y accumulation of download_numpy, src/app.py lines 143-154,
for digits 0..9 (none when some file fails to decode). -/
def numpyLoop (decode : List Nat → Option Image) (fs : LocalFS) :
    Option (List Image × List Nat) :=
  numpyOuter decode fs (List.range 10) ([], [])

/-- The download_numpy handler, src/app.py lines 136-177: 404 when no
images were found, 500 when a decode raised, otherwise the
savez_compressed container with X and y. -/
def download_numpy (decode : List Nat → Option Image) (fs : LocalFS) : HttpResponse :=
  match numpyLoop decode fs with
  | none => ⟨500, .json (.obj [("error", .str "decode failure")])⟩
  | some (X, y) =>
      if X.length = 0 then
        ⟨404, .json (.obj [("error", .str "No images found")])⟩
      else
        ⟨200, .npzFile X y⟩

/-- One call to save_digit: its request and the nondeterministic inputs
(wall-clock timestamp, uuid suffix, supabase outcome). -/
structure UploadCall where
  req : UploadRequest
  timestamp : String
  unique_id : String
  uploadErr : Option String

/-- Run a sequence of save_digit calls, threading the server state (the
Unicode tables are fixed for the process). -/
def runUploads (U : PyUnicode) (st : ServerState) : List UploadCall → ServerState
  | [] => st
  | c :: rest =>
      runUploads U (save_digit U st c.req c.timestamp c.unique_id c.uploadErr).1 rest

/-- A server state with empty remote storage and no local directories. -/
def emptyState : ServerState :=
  { buckets := fun _ => [], localFS := fun _ => none }

/-- A 28 by 28 grayscale example image. -/
def exImage : Image := { width := 28, height := 28, mode := "L" }

/-- An example local tree: one stored sample under the digit-3 directory,
no other directory present. -/
def exFS : LocalFS :=
  fun d => if d = 3 then some [{ name := "a.png", content := [0] }] else none

/-- An example decoder that accepts any bytes. -/
def exDecode : List Nat → Option Image := fun _ => some exImage

/-! Helper lemmas. -/

/-- Strings with equal character data are equal. -/
lemma strExt {s t : String} (h : s.data = t.data) : s = t := by
  cases s; cases t; exact congrArg String.mk h

/-- Character data of the decimal string of a digit. -/
lemma toString_digit_data : ∀ d < 10, (toString d).data = [Nat.digitChar d] := by
  decide

/-- Nat.digitChar is injective below 10. -/
lemma digitChar_inj10 : ∀ d < 10, ∀ e < 10, Nat.digitChar d = Nat.digitChar e → d = e := by
  decide

/-- Digit characters are never the key separator. -/
lemma digitChar_ne_slash : ∀ d < 10, (Nat.digitChar d != '/') = true := by
  decide

/-- Decimal strings of digits have length 1. -/
lemma toString_digit_length : ∀ d < 10, (toString d).length = 1 := by
  decide

/-- Cancellation of a common string on the left of an append. -/
lemma str_append_cancel {a n m : String} (h : a ++ n = a ++ m) : n = m := by
  apply strExt
  have hd := congrArg String.data h
  simp only [String.data_append] at hd
  exact List.append_cancel_left hd

/-- A key of the form <digit>/<rest> determines the digit and the rest. -/
lemma digit_key_inj {d e : Nat} (hd : d < 10) (he : e < 10) {n m : String}
    (h : toString d ++ "/" ++ n = toString e ++ "/" ++ m) : d = e ∧ n = m := by
  have hdata := congrArg String.data h
  simp only [String.data_append, toString_digit_data d hd, toString_digit_data e he] at hdata
  simp only [List.cons_append, List.nil_append, List.cons.injEq] at hdata
  exact ⟨digitChar_inj10 d hd e he hdata.1, strExt hdata.2.2⟩

/-- The per-directory count coincides with the length of the png-name list. -/
lemma dirCount_eq_pngNames_length (fs : LocalFS) (d : Nat) :
    dirCount fs d = (pngNames fs d).length := by
  unfold dirCount pngNames pngFiles
  cases fs d <;> simp

/-- Closed form of the get_stats loop. -/
lemma statsAux_eq (fs : LocalFS) :
    ∀ (l : List Nat) (acc : List (String × Nat) × Nat),
      statsAux fs l acc =
        (acc.1 ++ l.map (fun d => (toString d, dirCount fs d)),
         acc.2 + (l.map (dirCount fs)).sum) := by
  intro l
  induction l with
  | nil => intro acc; simp [statsAux]
  | cons d rest ih =>
      intro acc
      cases h : fs d with
      | some entries =>
          simp only [statsAux, h]
          rw [ih]
          simp [dirCount, h, List.append_assoc, add_assoc]
      | none =>
          simp only [statsAux, h]
          rw [ih]
          simp [dirCount, h]

/-- Closed form of the list_files loop. -/
lemma filesAux_eq (fs : LocalFS) :
    ∀ (l : List Nat) (acc : List (String × List String)),
      filesAux fs l acc = acc ++ l.map (fun d => (toString d, pngNames fs d)) := by
  intro l
  induction l with
  | nil => intro acc; simp [filesAux]
  | cons d rest ih =>
      intro acc
      cases h : fs d with
      | some entries =>
          simp only [filesAux, h]
          rw [ih]
          simp [pngNames, pngFiles, h, List.append_assoc]
      | none =>
          simp only [filesAux, h]
          rw [ih]
          simp [pngNames, pngFiles, h, List.append_assoc]

/-- Closed form of the download_zip loop. -/
lemma zipAux_eq (fs : LocalFS) :
    ∀ (l : List Nat) (acc : List (String × List Nat)),
      zipAux fs l acc = acc ++ zipFlat fs l := by
  intro l
  induction l with
  | nil => intro acc; simp [zipAux, zipFlat]
  | cons d rest ih =>
      intro acc
      cases h : fs d with
      | some entries =>
          simp only [zipAux, h]
          rw [ih]
          simp [zipFlat, pngFiles, h, List.append_assoc]
      | none =>
          simp only [zipAux, h]
          rw [ih]
          simp [zipFlat, pngFiles, h]

/-- Archive length: one entry per ".png" file of each listed digit. -/
lemma zipFlat_length (fs : LocalFS) :
    ∀ l : List Nat, (zipFlat fs l).length = (l.map (dirCount fs)).sum := by
  intro l
  induction l with
  | nil => simp [zipFlat]
  | cons d rest ih =>
      simp [zipFlat, ih, dirCount_eq_pngNames_length, pngNames]

/-- Membership in the archive built over a digit list. -/
lemma zipFlat_mem (fs : LocalFS) (p : String × List Nat) :
    ∀ l : List Nat,
      (p ∈ zipFlat fs l ↔ ∃ d ∈ l, ∃ f ∈ pngFiles fs d,
        p = (toString d ++ "/" ++ f.name, f.content)) := by
  intro l
  induction l with
  | nil => simp [zipFlat]
  | cons d rest ih =>
      simp only [zipFlat, List.mem_append, List.mem_map, ih, List.mem_cons]
      constructor
      · rintro (⟨f, hf, rfl⟩ | ⟨e, he, f, hf, rfl⟩)
        · exact ⟨d, Or.inl rfl, f, hf, rfl⟩
        · exact ⟨e, Or.inr he, f, hf, rfl⟩
      · rintro ⟨e, rfl | he, f, hf, rfl⟩
        · exact Or.inl ⟨f, hf, rfl⟩
        · exact Or.inr ⟨e, he, f, hf, rfl⟩

/-- The archive-entry map of one digit is injective on file entries. -/
lemma zipEntry_inj (d : Nat) :
    Function.Injective (fun f : FileEntry => (toString d ++ "/" ++ f.name, f.content)) := by
  rintro ⟨fn, fc⟩ ⟨gn, gc⟩ h
  simp only [Prod.mk.injEq] at h
  obtain ⟨h1, h2⟩ := h
  have hn : fn = gn := str_append_cancel h1
  simp [hn, h2]

/-- The archive of a duplicate-free list of digits below 10 has no
duplicate entries when no directory listing repeats a name. -/
lemma zipFlat_nodup (fs : LocalFS) :
    ∀ l : List Nat, (∀ e ∈ l, e < 10) → l.Nodup →
      (∀ e ∈ l, (pngNames fs e).Nodup) →
      (zipFlat fs l).Nodup := by
  intro l
  induction l with
  | nil => intro _ _ _; simp [zipFlat]
  | cons d rest ih =>
      intro hall hnodup hnames
      simp only [zipFlat]
      rw [List.nodup_append]
      refine ⟨?_, ?_, ?_⟩
      · exact List.Nodup.map (zipEntry_inj d)
          (List.Nodup.of_map FileEntry.name
            (by simpa [pngNames] using hnames d (List.mem_cons_self d rest)))
      · exact ih (fun e he => hall e (List.mem_cons_of_mem _ he))
          (List.nodup_cons.mp hnodup).2
          (fun e he => hnames e (List.mem_cons_of_mem _ he))
      · intro a ha hb
        obtain ⟨f, hf, rfl⟩ := List.mem_map.mp ha
        rw [zipFlat_mem] at hb
        obtain ⟨e, he, g, hg, heq⟩ := hb
        simp only [Prod.mk.injEq] at heq
        have hd10 : d < 10 := hall d (List.mem_cons_self d rest)
        have hde := (digit_key_inj hd10 (hall e (List.mem_cons_of_mem _ he)) heq.1).1
        exact (List.nodup_cons.mp hnodup).1 (hde ▸ he)

/-- Invariant of the inner download_numpy loop: the X and y accumulators
grow in lockstep and y only collects labels below 10. -/
lemma numpyInner_inv (decode : List Nat → Option Image) (label : Nat) :
    ∀ (files : List FileEntry) (acc out : List Image × List Nat),
      numpyInner decode label files acc = some out →
      acc.1.length = acc.2.length → (∀ x ∈ acc.2, x < 10) → label < 10 →
      out.1.length = out.2.length ∧ ∀ x ∈ out.2, x < 10 := by
  intro files
  induction files with
  | nil =>
      intro acc out h h1 h2 _
      simp only [numpyInner, Option.some.injEq] at h
      subst h
      exact ⟨h1, h2⟩
  | cons f rest ih =>
      intro acc out h h1 h2 hl
      cases hdec : decode f.content with
      | none =>
          simp only [numpyInner, hdec] at h
          exact Option.noConfusion h
      | some raw =>
          simp only [numpyInner, hdec] at h
          refine ih _ _ h (by simp [h1]) ?_ hl
          intro x hx
          rcases List.mem_append.mp hx with hx' | hx'
          · exact h2 x hx'
          · simp only [List.mem_singleton] at hx'
            omega

/-- Invariant of the outer download_numpy loop over a digit list. -/
lemma numpyOuter_inv (decode : List Nat → Option Image) (fs : LocalFS) :
    ∀ (l : List Nat) (acc out : List Image × List Nat),
      numpyOuter decode fs l acc = some out →
      (∀ e ∈ l, e < 10) →
      acc.1.length = acc.2.length → (∀ x ∈ acc.2, x < 10) →
      out.1.length = out.2.length ∧ ∀ x ∈ out.2, x < 10 := by
  intro l
  induction l with
  | nil =>
      intro acc out h _ h1 h2
      simp only [numpyOuter, Option.some.injEq] at h
      subst h
      exact ⟨h1, h2⟩
  | cons d rest ih =>
      intro acc out h hall h1 h2
      cases hm : numpyInner decode d (pngFiles fs d) acc with
      | none =>
          simp only [numpyOuter, hm] at h
          exact Option.noConfusion h
      | some acc2 =>
          simp only [numpyOuter, hm] at h
          have hinv := numpyInner_inv decode d _ _ _ hm h1 h2
            (hall d (List.mem_cons_self d rest))
          exact ih _ _ h (fun x hx => hall x (List.mem_cons_of_mem _ hx)) hinv.1 hinv.2

/-- The outer download_numpy loop leaves the accumulators untouched when
every listed directory has no ".png" file. -/
lemma numpyOuter_empty (decode : List Nat → Option Image) (fs : LocalFS) :
    ∀ l : List Nat, (∀ e ∈ l, pngFiles fs e = []) →
      ∀ acc, numpyOuter decode fs l acc = some acc := by
  intro l
  induction l with
  | nil => intro _ acc; rfl
  | cons d rest ih =>
      intro hall acc
      have hd : pngFiles fs d = [] := hall d (List.mem_cons_self d rest)
      simp only [numpyOuter, hd, numpyInner]
      exact ih (fun x hx => hall x (List.mem_cons_of_mem _ hx)) acc

/-- save_digit never touches the local dataset tree. -/
lemma save_digit_localFS (U : PyUnicode) (st : ServerState) (req : UploadRequest)
    (timestamp unique_id : String) (uploadErr : Option String) :
    (save_digit U st req timestamp unique_id uploadErr).1.localFS = st.localFS := by
  rcases req with ⟨imageF, labelF⟩
  cases imageF with
  | none => rfl
  | some imgField =>
      cases labelF with
      | none => rfl
      | some label =>
          simp only [save_digit]
          split
          · rfl
          · split
            · rfl
            · split
              · rfl
              · cases imgField with
                | none => rfl
                | some raw =>
                    cases uploadErr with
                    | some msg => rfl
                    | none => rfl

/-- save_digit touches no bucket other than "digits". -/
lemma save_digit_buckets_ne (U : PyUnicode) (st : ServerState) (req : UploadRequest)
    (timestamp unique_id : String) (uploadErr : Option String)
    (b : String) (hb : b ≠ "digits") :
    (save_digit U st req timestamp unique_id uploadErr).1.buckets b = st.buckets b := by
  rcases req with ⟨imageF, labelF⟩
  cases imageF with
  | none => rfl
  | some imgField =>
      cases labelF with
      | none => rfl
      | some label =>
          simp only [save_digit]
          split
          · rfl
          · split
            · rfl
            · split
              · rfl
              · cases imgField with
                | none => rfl
                | some raw =>
                    cases uploadErr with
                    | some msg => rfl
                    | none =>
                        show Function.update st.buckets "digits"
                            ((make_key label (make_filename label timestamp unique_id),
                              process_image raw) :: st.buckets "digits") b = st.buckets b
                        exact Function.update_noteq hb _ _

/-- On the "digits" bucket, save_digit either leaves it unchanged or
prepends exactly one object whose key the naming scheme built. -/
lemma save_digit_buckets_digits (U : PyUnicode) (st : ServerState) (req : UploadRequest)
    (timestamp unique_id : String) (uploadErr : Option String) :
    (save_digit U st req timestamp unique_id uploadErr).1.buckets "digits" =
      st.buckets "digits" ∨
    ∃ label img, req.label = some label ∧
      (save_digit U st req timestamp unique_id uploadErr).1.buckets "digits" =
        (make_key label (make_filename label timestamp unique_id), img) ::
          st.buckets "digits" := by
  rcases req with ⟨imageF, labelF⟩
  cases imageF with
  | none => exact Or.inl rfl
  | some imgField =>
      cases labelF with
      | none => exact Or.inl rfl
      | some label =>
          simp only [save_digit]
          split
          · exact Or.inl rfl
          · split
            · exact Or.inl rfl
            · split
              · exact Or.inl rfl
              · cases imgField with
                | none => exact Or.inl rfl
                | some raw =>
                    cases uploadErr with
                    | some msg => exact Or.inl rfl
                    | none =>
                        refine Or.inr ⟨label, process_image raw, rfl, ?_⟩
                        show Function.update st.buckets "digits"
                            ((make_key label (make_filename label timestamp unique_id),
                              process_image raw) :: st.buckets "digits") "digits" =
                          (make_key label (make_filename label timestamp unique_id),
                            process_image raw) :: st.buckets "digits"
                        exact Function.update_same _ _ _

/-- Full behaviour of save_digit on a valid request with a decodable image
and a successful upload. -/
lemma save_digit_success (U : PyUnicode) (st : ServerState) (req : UploadRequest)
    (timestamp unique_id : String) (raw : Image) (label : String) (labelVal : Nat)
    (hi : req.image = some (some raw)) (hl : req.label = some label)
    (h1 : pyIsDigit U label = true) (h2 : pyToInt U label = some labelVal)
    (h3 : labelVal < 10) :
    save_digit U st req timestamp unique_id none =
      ({ st with buckets :=
          (Function.update st.buckets "digits"
            ((make_key label (make_filename label timestamp unique_id),
              process_image raw) :: st.buckets "digits")) },
       ⟨200, .json (.obj
         [("success", .bool true),
          ("message", .str ("Saved digit " ++ label ++ " in Supabase Storage")),
          ("filename", .str (make_filename label timestamp unique_id)),
          ("label", .str label)])⟩) := by
  rcases req with ⟨imageF, labelF⟩
  simp only at hi hl
  subst hi; subst hl
  simp only [save_digit, h1, h2]
  rw [if_neg (by simp [h1])]
  rw [if_neg (by omega)]

/-- Behaviour of save_digit when the label field is present but str.isdigit
rejects it: 400 and no state change. -/
lemma save_digit_not_digit (U : PyUnicode) (st : ServerState) (req : UploadRequest)
    (timestamp unique_id : String) (uploadErr : Option String) (label : String)
    (hl : req.label = some label) (hv : pyIsDigit U label = false) :
    (save_digit U st req timestamp unique_id uploadErr).1 = st ∧
    (save_digit U st req timestamp unique_id uploadErr).2.status = 400 ∧
    ∃ msg, (save_digit U st req timestamp unique_id uploadErr).2.body =
      .json (.obj [("error", .str msg)]) := by
  rcases req with ⟨imageF, labelF⟩
  simp only at hl
  subst hl
  cases imageF with
  | none => exact ⟨rfl, rfl, "Image and label required", rfl⟩
  | some imgField =>
      simp only [save_digit]
      rw [if_pos hv]
      exact ⟨rfl, rfl, "Label must be 0-9", rfl⟩

/-- Behaviour of save_digit when the image field is present and the label
passes str.isdigit but int() raises ValueError (a digit string containing
a non-decimal digit character): 500 and no state change (a missing image
field is instead rejected 400 before the label is inspected). -/
lemma save_digit_int_raises (U : PyUnicode) (st : ServerState) (req : UploadRequest)
    (timestamp unique_id : String) (uploadErr : Option String) (label : String)
    (imgField : Option Image)
    (hi : req.image = some imgField) (hl : req.label = some label)
    (h1 : pyIsDigit U label = true) (h2 : pyToInt U label = none) :
    (save_digit U st req timestamp unique_id uploadErr).1 = st ∧
    (save_digit U st req timestamp unique_id uploadErr).2.status = 500 ∧
    ∃ msg, (save_digit U st req timestamp unique_id uploadErr).2.body =
      .json (.obj [("error", .str msg)]) := by
  rcases req with ⟨imageF, labelF⟩
  simp only at hi hl
  subst hi
  subst hl
  simp only [save_digit, h2]
  rw [if_neg (by simp [h1])]
  exact ⟨rfl, rfl, "invalid literal for int() with base 10", rfl⟩

/-- Behaviour of save_digit when the label parses to a value of 10 or
more: 400 and no state change. -/
lemma save_digit_out_of_range (U : PyUnicode) (st : ServerState) (req : UploadRequest)
    (timestamp unique_id : String) (uploadErr : Option String) (label : String)
    (labelVal : Nat) (hl : req.label = some label)
    (h2 : pyToInt U label = some labelVal) (h3 : 10 ≤ labelVal) :
    (save_digit U st req timestamp unique_id uploadErr).1 = st ∧
    (save_digit U st req timestamp unique_id uploadErr).2.status = 400 ∧
    ∃ msg, (save_digit U st req timestamp unique_id uploadErr).2.body =
      .json (.obj [("error", .str msg)]) := by
  rcases req with ⟨imageF, labelF⟩
  simp only at hl
  subst hl
  cases imageF with
  | none => exact ⟨rfl, rfl, "Image and label required", rfl⟩
  | some imgField =>
      simp only [save_digit, h2]
      rcases Bool.eq_false_or_eq_true (pyIsDigit U label) with hb | hb
      · rw [if_neg (by simp [hb])]
        rw [if_pos (by omega)]
        exact ⟨rfl, rfl, "Label must be 0-9", rfl⟩
      · rw [if_pos hb]
        exact ⟨rfl, rfl, "Label must be 0-9", rfl⟩

/-- Running any sequence of save_digit calls leaves the local dataset
tree unchanged. -/
lemma runUploads_localFS (U : PyUnicode) (calls : List UploadCall) :
    ∀ st : ServerState, (runUploads U st calls).localFS = st.localFS := by
  induction calls with
  | nil => intro st; rfl
  | cons c rest ih =>
      intro st
      simp only [runUploads]
      rw [ih, save_digit_localFS]

/-! Claim theorems. -/

/-- C1: for every Unicode table assignment, save_digit writes the
normalized image only to the remote bucket "digits" (prepending a single
object at the key of the naming scheme) and never creates or modifies
anything in the local dataset tree, which is the sole input of the four
read endpoints; hence every sequence of save_digit calls leaves the
values returned by get_stats, list_files, download_zip and
download_numpy unchanged. -/
theorem save_digit_frame (U : PyUnicode) (st : ServerState) (calls : List UploadCall) :
    (runUploads U st calls).localFS = st.localFS ∧
    get_stats (runUploads U st calls).localFS = get_stats st.localFS ∧
    list_files (runUploads U st calls).localFS = list_files st.localFS ∧
    download_zip (runUploads U st calls).localFS = download_zip st.localFS ∧
    (∀ decode, download_numpy decode (runUploads U st calls).localFS =
      download_numpy decode st.localFS) ∧
    (∀ req timestamp unique_id uploadErr,
      (save_digit U st req timestamp unique_id uploadErr).1.localFS = st.localFS) ∧
    (∀ req timestamp unique_id uploadErr b,
      b = "digits" ∨
      (save_digit U st req timestamp unique_id uploadErr).1.buckets b = st.buckets b) ∧
    (∀ req timestamp unique_id uploadErr,
      (save_digit U st req timestamp unique_id uploadErr).1.buckets "digits" =
        st.buckets "digits" ∨
      ∃ label img, req.label = some label ∧
        (save_digit U st req timestamp unique_id uploadErr).1.buckets "digits" =
          (make_key label (make_filename label timestamp unique_id), img) ::
            st.buckets "digits") := by
  have hfs := runUploads_localFS U calls st
  refine ⟨hfs, by rw [hfs], by rw [hfs], by rw [hfs], fun decode => by rw [hfs],
    fun req t u e => save_digit_localFS U st req t u e,
    fun req t u e b => ?_,
    fun req t u e => save_digit_buckets_digits U st req t u e⟩
  by_cases hb : b = "digits"
  · exact Or.inl hb
  · exact Or.inr (save_digit_buckets_ne U st req t u e b hb)

/-- C2 counterexample: three labels outside the ten strings "0" through
"9" on which the program does not answer 400 (with a valid image and a
successful upload): the label "00" is accepted with 200 (isdigit holds
and int gives 0), the Arabic-Indic digit three is accepted with 200
(isdigit holds and int gives 3), and the superscript two answers 500,
not 400 (isdigit holds but int raises ValueError). -/
theorem save_digit_label_claim_cex :
    (("00" : String) ∉ ["0", "1", "2", "3", "4", "5", "6", "7", "8", "9"] ∧
      (save_digit exUnicode emptyState ⟨some (some exImage), some "00"⟩
        "20240101_000000" "abcd1234" none).2.status = 200) ∧
    (("٣" : String) ∉ ["0", "1", "2", "3", "4", "5", "6", "7", "8", "9"] ∧
      (save_digit exUnicode emptyState ⟨some (some exImage), some "٣"⟩
        "20240101_000000" "abcd1234" none).2.status = 200) ∧
    (("²" : String) ∉ ["0", "1", "2", "3", "4", "5", "6", "7", "8", "9"] ∧
      (save_digit exUnicode emptyState ⟨some (some exImage), some "²"⟩
        "20240101_000000" "abcd1234" none).2.status = 500) := by
  exact ⟨⟨by decide, rfl⟩, ⟨by decide, rfl⟩, ⟨by decide, rfl⟩⟩

/-- C2 (amended): for every Unicode table assignment, a present label
failing the validation check is rejected with no state change and no
clamping, regardless of the image field (absent, undecodable or valid)
and of the upload outcome: a label failing str.isdigit gets 400 with an
error body; a label passing str.isdigit on which int() raises ValueError
(a digit string with a non-decimal digit character such as the
superscript two), with the image field present, gets 500 with an error
body, not 400; a label parsing
to a value of 10 or more gets 400 with an error body. The 400-rejected
set is not the complement of the ten strings "0"-"9": decimal digit
strings with value at most 9, such as "00" or the Arabic-Indic three,
are accepted. -/
theorem save_digit_label_validation (U : PyUnicode) (st : ServerState)
    (req : UploadRequest) (timestamp unique_id : String)
    (uploadErr : Option String) (label : String)
    (hl : req.label = some label) :
    (pyIsDigit U label = false →
      (save_digit U st req timestamp unique_id uploadErr).2.status = 400 ∧
      (save_digit U st req timestamp unique_id uploadErr).1 = st ∧
      ∃ msg, (save_digit U st req timestamp unique_id uploadErr).2.body =
        .json (.obj [("error", .str msg)])) ∧
    (∀ imgField, req.image = some imgField →
      pyIsDigit U label = true → pyToInt U label = none →
      (save_digit U st req timestamp unique_id uploadErr).2.status = 500 ∧
      (save_digit U st req timestamp unique_id uploadErr).1 = st ∧
      ∃ msg, (save_digit U st req timestamp unique_id uploadErr).2.body =
        .json (.obj [("error", .str msg)])) ∧
    (∀ labelVal, pyToInt U label = some labelVal → 10 ≤ labelVal →
      (save_digit U st req timestamp unique_id uploadErr).2.status = 400 ∧
      (save_digit U st req timestamp unique_id uploadErr).1 = st ∧
      ∃ msg, (save_digit U st req timestamp unique_id uploadErr).2.body =
        .json (.obj [("error", .str msg)])) := by
  refine ⟨?_, ?_, ?_⟩
  · intro hv
    obtain ⟨h1, h2, h3⟩ :=
      save_digit_not_digit U st req timestamp unique_id uploadErr label hl hv
    exact ⟨h2, h1, h3⟩
  · intro imgField hi hd hr
    obtain ⟨h1, h2, h3⟩ :=
      save_digit_int_raises U st req timestamp unique_id uploadErr label imgField
        hi hl hd hr
    exact ⟨h2, h1, h3⟩
  · intro labelVal hsome h10
    obtain ⟨h1, h2, h3⟩ :=
      save_digit_out_of_range U st req timestamp unique_id uploadErr label labelVal
        hl hsome h10
    exact ⟨h2, h1, h3⟩

/-- C2 witness: the amended validation theorem at concrete labels: "x9"
fails isdigit (400, unchanged state), the superscript two passes isdigit
but int raises (500), and "12" parses to 12 (400). -/
theorem save_digit_label_validation_witness :
    ((save_digit exUnicode emptyState ⟨some (some exImage), some "x9"⟩
        "t" "u" none).2.status = 400 ∧
      (save_digit exUnicode emptyState ⟨some (some exImage), some "x9"⟩
        "t" "u" none).1 = emptyState) ∧
    (save_digit exUnicode emptyState ⟨some (some exImage), some "²"⟩
      "t" "u" none).2.status = 500 ∧
    (save_digit exUnicode emptyState ⟨some (some exImage), some "12"⟩
      "t" "u" none).2.status = 400 := by
  have hA := save_digit_label_validation exUnicode emptyState
    ⟨some (some exImage), some "x9"⟩ "t" "u" none "x9" rfl
  have hB := save_digit_label_validation exUnicode emptyState
    ⟨some (some exImage), some "²"⟩ "t" "u" none "²" rfl
  have hC := save_digit_label_validation exUnicode emptyState
    ⟨some (some exImage), some "12"⟩ "t" "u" none "12" rfl
  have h1 := hA.1 (by decide)
  have h2 := hB.2.1 (some exImage) rfl (by decide) (by decide)
  have h3 := hC.2.2 12 (by decide) (by decide)
  exact ⟨⟨h1.1, h1.2.1⟩, h2.1, h3.1⟩

/-- C3: the normalized image save_digit stores is exactly 28 by 28 and
single-channel grayscale (mode "L"); when the decoded size differs from
(28, 28) it was produced by bilinear resampling, never nearest-neighbor;
and a successful save_digit stores exactly this normalized image, for
every Unicode table assignment. -/
theorem normalize_image_canonical (raw : Image) (hfresh : raw.lastResample = none) :
    (process_image raw).width = 28 ∧
    (process_image raw).height = 28 ∧
    (process_image raw).mode = "L" ∧
    (process_image raw).lastResample ≠ some Resample.nearest ∧
    ((raw.width, raw.height) ≠ (28, 28) →
      (process_image raw).lastResample = some Resample.bilinear) ∧
    (∀ U st (req : UploadRequest) timestamp unique_id label labelVal,
      req.image = some (some raw) → req.label = some label →
      pyIsDigit U label = true → pyToInt U label = some labelVal → labelVal < 10 →
      (save_digit U st req timestamp unique_id none).1.buckets "digits" =
        (make_key label (make_filename label timestamp unique_id),
          process_image raw) :: st.buckets "digits") := by
  have hsave : ∀ U st (req : UploadRequest) timestamp unique_id label labelVal,
      req.image = some (some raw) → req.label = some label →
      pyIsDigit U label = true → pyToInt U label = some labelVal → labelVal < 10 →
      (save_digit U st req timestamp unique_id none).1.buckets "digits" =
        (make_key label (make_filename label timestamp unique_id),
          process_image raw) :: st.buckets "digits" := by
    intro U st req t u label labelVal hi hl hv1 hv2 hv3
    rw [save_digit_success U st req t u raw label labelVal hi hl hv1 hv2 hv3]
    show Function.update st.buckets "digits"
        ((make_key label (make_filename label t u),
          process_image raw) :: st.buckets "digits") "digits" =
      (make_key label (make_filename label t u), process_image raw) :: st.buckets "digits"
    exact Function.update_same _ _ _
  have hmain : (process_image raw).width = 28 ∧ (process_image raw).height = 28 ∧
      (process_image raw).mode = "L" ∧
      (process_image raw).lastResample ≠ some Resample.nearest ∧
      ((raw.width, raw.height) ≠ (28, 28) →
        (process_image raw).lastResample = some Resample.bilinear) := by
    simp only [process_image]
    by_cases hsz : Image.size raw.convertL = (28, 28)
    · rw [if_neg (not_not_intro hsz)]
      refine ⟨congrArg Prod.fst hsz, congrArg Prod.snd hsz, rfl, ?_, ?_⟩
      · simp [Image.convertL, hfresh]
      · intro hne
        exact absurd hsz hne
    · rw [if_pos hsz]
      exact ⟨rfl, rfl, rfl, by simp [Image.resizeTo], fun _ => rfl⟩
  exact ⟨hmain.1, hmain.2.1, hmain.2.2.1, hmain.2.2.2.1, hmain.2.2.2.2, hsave⟩

/-- C3 witness: the normalization theorem applied to a fresh 56 by 56 RGB
image. -/
theorem normalize_image_canonical_witness :
    (process_image { width := 56, height := 56, mode := "RGB" }).width = 28 ∧
    (process_image { width := 56, height := 56, mode := "RGB" }).height = 28 ∧
    (process_image { width := 56, height := 56, mode := "RGB" }).mode = "L" ∧
    (process_image { width := 56, height := 56, mode := "RGB" }).lastResample ≠
      some Resample.nearest ∧
    (((56 : Nat), (56 : Nat)) ≠ ((28 : Nat), (28 : Nat)) →
      (process_image { width := 56, height := 56, mode := "RGB" }).lastResample =
        some Resample.bilinear) ∧
    (∀ U st (req : UploadRequest) timestamp unique_id label labelVal,
      req.image = some (some { width := 56, height := 56, mode := "RGB" }) →
      req.label = some label →
      pyIsDigit U label = true → pyToInt U label = some labelVal → labelVal < 10 →
      (save_digit U st req timestamp unique_id none).1.buckets "digits" =
        (make_key label (make_filename label timestamp unique_id),
          process_image { width := 56, height := 56, mode := "RGB" }) ::
            st.buckets "digits") :=
  normalize_image_canonical { width := 56, height := 56, mode := "RGB" } rfl

/-- For single ASCII digit labels, every Unicode table assignment passes
the save_digit validation check with the expected value. -/
lemma digit_label_valid (U : PyUnicode) : ∀ d < 10,
    pyIsDigit U (toString d) = true ∧ pyToInt U (toString d) = some d := by
  intro d hd
  have hdata := toString_digit_data d hd
  have hfacts : '0' ≤ Nat.digitChar d ∧ Nat.digitChar d ≤ '9' ∧
      (Nat.digitChar d).toNat - 48 = d := by
    interval_cases d <;> exact ⟨by decide, by decide, by decide⟩
  obtain ⟨hc1, hc2, hc3⟩ := hfacts
  have hdv := U.ascii_decimal _ hc1 hc2
  have hic := U.decimal_isDigit _ _ hdv
  constructor
  · unfold pyIsDigit
    rw [toString_digit_length d hd, hdata]
    simp [hic]
  · unfold pyToInt
    rw [hdata]
    simp [hdv, hc3]

/-- C4: for every label 0-9 and well-formed nondeterministic inputs (a
15-character YYYYMMDD_HHMMSS timestamp and an 8-character random suffix),
the generated filename is digit_<label>_<timestamp>_<suffix>.png (of total
length 36), the storage key is <label>/<filename>, the segment of the key
before the first '/' is exactly the label, and a successful save_digit
stores the object under this key and reports this filename, for every
Unicode table assignment. -/
theorem naming_scheme_key (d : Nat) (hd : d < 10) (timestamp unique_id : String)
    (hts : timestamp.length = 15) (huid : unique_id.length = 8) :
    make_filename (toString d) timestamp unique_id =
      "digit_" ++ toString d ++ "_" ++ timestamp ++ "_" ++ unique_id ++ ".png" ∧
    (make_filename (toString d) timestamp unique_id).length = 36 ∧
    make_key (toString d) (make_filename (toString d) timestamp unique_id) =
      toString d ++ "/" ++ make_filename (toString d) timestamp unique_id ∧
    prefixBeforeSlash (make_key (toString d)
      (make_filename (toString d) timestamp unique_id)) = toString d ∧
    (∀ U st (req : UploadRequest) raw,
      req.image = some (some raw) → req.label = some (toString d) →
      save_digit U st req timestamp unique_id none =
        ({ st with buckets :=
            (Function.update st.buckets "digits"
              ((make_key (toString d) (make_filename (toString d) timestamp unique_id),
                process_image raw) :: st.buckets "digits")) },
         ⟨200, .json (.obj
           [("success", .bool true),
            ("message", .str ("Saved digit " ++ toString d ++ " in Supabase Storage")),
            ("filename", .str (make_filename (toString d) timestamp unique_id)),
            ("label", .str (toString d))])⟩)) := by
  refine ⟨rfl, ?_, rfl, ?_, ?_⟩
  · have h6 : ("digit_" : String).length = 6 := rfl
    have h1 : ("_" : String).length = 1 := rfl
    have h4 : (".png" : String).length = 4 := rfl
    simp [make_filename, String.length_append, h6, h1, h4, hts, huid,
      toString_digit_length d hd]
  · have hslash : ("/" : String).data = ['/'] := rfl
    have hdata : (make_key (toString d)
        (make_filename (toString d) timestamp unique_id)).data =
        Nat.digitChar d :: '/' ::
          (make_filename (toString d) timestamp unique_id).data := by
      simp [make_key, String.data_append, toString_digit_data d hd, hslash]
    have htake : List.takeWhile (fun c => c != '/')
        (Nat.digitChar d :: '/' ::
          (make_filename (toString d) timestamp unique_id).data) =
        [Nat.digitChar d] := by
      simp [List.takeWhile, digitChar_ne_slash d hd]
    unfold prefixBeforeSlash
    rw [hdata, htake]
    exact strExt (by rw [toString_digit_data d hd])
  · intro U st req raw hi hl
    exact save_digit_success U st req timestamp unique_id raw (toString d) d hi hl
      (digit_label_valid U d hd).1 (digit_label_valid U d hd).2 hd

/-- C4 witness: the naming-scheme theorem at label 7 with a concrete
timestamp and suffix. -/
theorem naming_scheme_key_witness :
    make_filename (toString 7) "20251012_120000" "abcd1234" =
      "digit_" ++ toString 7 ++ "_" ++ "20251012_120000" ++ "_" ++ "abcd1234" ++ ".png" ∧
    (make_filename (toString 7) "20251012_120000" "abcd1234").length = 36 ∧
    make_key (toString 7) (make_filename (toString 7) "20251012_120000" "abcd1234") =
      toString 7 ++ "/" ++ make_filename (toString 7) "20251012_120000" "abcd1234" ∧
    prefixBeforeSlash (make_key (toString 7)
      (make_filename (toString 7) "20251012_120000" "abcd1234")) = toString 7 ∧
    (∀ U st (req : UploadRequest) raw,
      req.image = some (some raw) → req.label = some (toString 7) →
      save_digit U st req "20251012_120000" "abcd1234" none =
        ({ st with buckets :=
            (Function.update st.buckets "digits"
              ((make_key (toString 7)
                  (make_filename (toString 7) "20251012_120000" "abcd1234"),
                process_image raw) :: st.buckets "digits")) },
         ⟨200, .json (.obj
           [("success", .bool true),
            ("message", .str ("Saved digit " ++ toString 7 ++ " in Supabase Storage")),
            ("filename", .str (make_filename (toString 7) "20251012_120000" "abcd1234")),
            ("label", .str (toString 7))])⟩)) :=
  naming_scheme_key 7 (by decide) "20251012_120000" "abcd1234" rfl rfl

/-- C5: for every state of the local dataset tree, the total computed by
get_stats equals the sum of its ten per-label counts, and also equals the
number of filenames in the list_files dict flattened across all ten
labels (both filter the same ".png" entries). -/
theorem stats_total_consistent (fs : LocalFS) :
    (statsLoop fs).2 = ((statsLoop fs).1.map Prod.snd).sum ∧
    (statsLoop fs).2 = ((filesLoop fs).map (fun p => p.2.length)).sum ∧
    (statsLoop fs).1.length = 10 ∧
    get_stats fs = ⟨200, .json (.obj
      [("stats", .obj ((statsLoop fs).1.map (fun p => (p.1, Json.num p.2)))),
       ("total", .num (statsLoop fs).2)])⟩ := by
  have hfun : dirCount fs = fun d => (pngNames fs d).length :=
    funext (fun d => dirCount_eq_pngNames_length fs d)
  have hs : statsLoop fs =
      ((List.range 10).map (fun d => (toString d, dirCount fs d)),
        ((List.range 10).map (dirCount fs)).sum) := by
    rw [statsLoop, statsAux_eq]; simp
  have hf2 : filesLoop fs = (List.range 10).map (fun d => (toString d, pngNames fs d)) := by
    rw [filesLoop, filesAux_eq]; simp
  refine ⟨?_, ?_, ?_, rfl⟩
  · rw [hs]
    simp only [List.map_map]
    rfl
  · rw [hs, hf2]
    simp only [List.map_map]
    rw [hfun]
    rfl
  · rw [hs]
    simp

/-- C6: when the dataset holds no ".png" sample under any of the ten
labels, download_numpy responds 404 with an error body, never an empty
packed-array file. -/
theorem download_numpy_empty_404 (decode : List Nat → Option Image) (fs : LocalFS)
    (hEmpty : ∀ d < 10, pngFiles fs d = []) :
    download_numpy decode fs =
      ⟨404, .json (.obj [("error", .str "No images found")])⟩ := by
  have h : numpyLoop decode fs = some ([], []) :=
    numpyOuter_empty decode fs (List.range 10)
      (fun e he => hEmpty e (List.mem_range.mp he)) ([], [])
  simp [download_numpy, h]

/-- C6 witness: the empty-dataset theorem at a tree with no directories. -/
theorem download_numpy_empty_404_witness :
    download_numpy (fun _ => none) (fun _ => none) =
      ⟨404, .json (.obj [("error", .str "No images found")])⟩ :=
  download_numpy_empty_404 (fun _ => none) (fun _ => none) (by decide)

/-- C7: whenever the download_numpy accumulation succeeds, the label
vector y has the same length as the image stack X (one label per stacked
image, appended in parallel), every label value is in [0, 9], and on a
non-empty dataset the 200 response carries exactly these arrays. -/
theorem download_numpy_parallel_arrays (decode : List Nat → Option Image)
    (fs : LocalFS) (X : List Image) (y : List Nat)
    (h : numpyLoop decode fs = some (X, y)) :
    X.length = y.length ∧ (∀ v ∈ y, v ≤ 9) ∧
    (X ≠ [] → download_numpy decode fs = ⟨200, .npzFile X y⟩) := by
  have hinv := numpyOuter_inv decode fs (List.range 10) ([], []) (X, y) h
    (fun e he => List.mem_range.mp he) rfl (by simp)
  refine ⟨hinv.1, fun v hv => by have := hinv.2 v hv; omega, ?_⟩
  intro hne
  simp only [download_numpy, h]
  rw [if_neg (by simpa [List.length_eq_zero] using hne)]

/-- C7 witness: the parallel-arrays theorem at the one-sample example
tree. -/
theorem download_numpy_parallel_arrays_witness :
    ([exImage.convertL].length = [3].length) ∧ (∀ v ∈ [3], v ≤ 9) ∧
    ([exImage.convertL] ≠ [] →
      download_numpy exDecode exFS = ⟨200, .npzFile [exImage.convertL] [3]⟩) :=
  download_numpy_parallel_arrays exDecode exFS [exImage.convertL] [3] (by decide)

/-- In a duplicate-free list, a member is counted exactly once (for any
lawful boolean equality). -/
lemma count_eq_one_of_mem_nodup {α : Type} [BEq α] [LawfulBEq α] {a : α} {l : List α}
    (d : l.Nodup) (h : a ∈ l) : l.count a = 1 := by
  induction l with
  | nil => simp at h
  | cons b t ih =>
      rcases List.mem_cons.mp h with rfl | h2
      · have hb : a ∉ t := (List.nodup_cons.mp d).1
        have hz : t.count a = 0 := List.count_eq_zero.mpr hb
        simp [List.count_cons, hz]
      · have hne : a ≠ b := by
          rintro rfl
          exact (List.nodup_cons.mp d).1 h2
        have hc := ih (List.nodup_cons.mp d).2 h2
        simp [List.count_cons, hc, hne]

/-- C8: whenever no directory listing repeats a filename (as on a real
filesystem), the ZIP archive of download_zip has exactly one entry per
stored ".png" sample, placed at <label>/<filename>, whose bytes are the
content of the stored file: membership characterizes the entries, the entry
count equals the stats total, and the entry of each sample occurs exactly
once. -/
theorem download_zip_entries_exact (fs : LocalFS)
    (hnames : ∀ d < 10, (pngNames fs d).Nodup) :
    (∀ p : String × List Nat, p ∈ zipEntries fs ↔
      ∃ d < 10, ∃ f ∈ pngFiles fs d, p = (toString d ++ "/" ++ f.name, f.content)) ∧
    (zipEntries fs).length = (statsLoop fs).2 ∧
    (∀ d, d < 10 → ∀ f, f ∈ pngFiles fs d →
      (zipEntries fs).count (toString d ++ "/" ++ f.name, f.content) = 1) ∧
    download_zip fs = ⟨200, .zipFile (zipEntries fs)⟩ := by
  have hz : zipEntries fs = zipFlat fs (List.range 10) := by
    rw [zipEntries, zipAux_eq]
    simp
  refine ⟨?_, ?_, ?_, rfl⟩
  · intro p
    rw [hz, zipFlat_mem]
    simp [List.mem_range]
  · rw [hz, zipFlat_length, statsLoop, statsAux_eq]
    simp
  · intro d hd f hf
    rw [hz]
    have hnd := zipFlat_nodup fs (List.range 10) (fun e he => List.mem_range.mp he)
      (List.nodup_range 10) (fun e he => hnames e (List.mem_range.mp he))
    apply count_eq_one_of_mem_nodup hnd
    rw [zipFlat_mem]
    exact ⟨d, List.mem_range.mpr hd, f, hf, rfl⟩

/-- C8 witness: the ZIP-exactness theorem at the one-sample example
tree. -/
theorem download_zip_entries_exact_witness :
    (∀ p : String × List Nat, p ∈ zipEntries exFS ↔
      ∃ d < 10, ∃ f ∈ pngFiles exFS d, p = (toString d ++ "/" ++ f.name, f.content)) ∧
    (zipEntries exFS).length = (statsLoop exFS).2 ∧
    (∀ d, d < 10 → ∀ f, f ∈ pngFiles exFS d →
      (zipEntries exFS).count (toString d ++ "/" ++ f.name, f.content) = 1) ∧
    download_zip exFS = ⟨200, .zipFile (zipEntries exFS)⟩ :=
  download_zip_entries_exact exFS (by decide)

/-- C9: for every label 0-9 whose directory does not exist, get_stats
reports the count 0 and list_files reports the empty filename list for
that label, and both dicts always carry entries for all ten labels in
order. -/
theorem missing_label_dir_empty (fs : LocalFS) (d : Nat) (hd : d < 10)
    (hmiss : fs d = none) :
    (toString d, 0) ∈ (statsLoop fs).1 ∧
    (toString d, ([] : List String)) ∈ filesLoop fs ∧
    (statsLoop fs).1.map Prod.fst = (List.range 10).map toString ∧
    (filesLoop fs).map Prod.fst = (List.range 10).map toString := by
  have hs : (statsLoop fs).1 =
      (List.range 10).map (fun e => (toString e, dirCount fs e)) := by
    rw [statsLoop, statsAux_eq]
    simp
  have hf : filesLoop fs = (List.range 10).map (fun e => (toString e, pngNames fs e)) := by
    rw [filesLoop, filesAux_eq]
    simp
  refine ⟨?_, ?_, ?_, ?_⟩
  · rw [hs]
    refine List.mem_map.mpr ⟨d, List.mem_range.mpr hd, ?_⟩
    simp [dirCount, hmiss]
  · rw [hf]
    refine List.mem_map.mpr ⟨d, List.mem_range.mpr hd, ?_⟩
    simp [pngNames, pngFiles, hmiss]
  · rw [hs, List.map_map]
    rfl
  · rw [hf, List.map_map]
    rfl

/-- C9 witness: the missing-directory theorem at the example tree, whose
digit-5 directory does not exist. -/
theorem missing_label_dir_empty_witness :
    (toString 5, 0) ∈ (statsLoop exFS).1 ∧
    (toString 5, ([] : List String)) ∈ filesLoop exFS ∧
    (statsLoop exFS).1.map Prod.fst = (List.range 10).map toString ∧
    (filesLoop exFS).map Prod.fst = (List.range 10).map toString :=
  missing_label_dir_empty exFS 5 (by decide) (by decide)

/-- C10 counterexample: at the empty dataset the list_files response body
is an object whose top-level keys are "files" and "total"; the per-label
filename lists sit under "files", not at the top level, so the body is
not of the shape where "0" is a top-level key. -/
theorem list_files_shape_cex :
    ("0" : String) ∉ (["files", "total"] : List String) ∧
    (list_files (fun _ => none)).body =
      .json (.obj
        [("files", .obj
          [("0", .arr []), ("1", .arr []), ("2", .arr []), ("3", .arr []),
           ("4", .arr []), ("5", .arr []), ("6", .arr []), ("7", .arr []),
           ("8", .arr []), ("9", .arr [])]),
         ("total", .num 0)]) ∧
    Json.keys (.obj
        [("files", .obj
          [("0", .arr []), ("1", .arr []), ("2", .arr []), ("3", .arr []),
           ("4", .arr []), ("5", .arr []), ("6", .arr []), ("7", .arr []),
           ("8", .arr []), ("9", .arr [])]),
         ("total", .num 0)]) = ["files", "total"] := by
  exact ⟨by decide, rfl, rfl⟩

/-- C10 (amended): the list_files response is 200 with a JSON object
holding the per-label filename lists nested under the key "files" (with
the ten label keys in order) and the flattened count under "total", not
with the per-label lists at the top level. -/
theorem list_files_shape (fs : LocalFS) :
    (list_files fs).status = 200 ∧
    (list_files fs).body =
      .json (.obj
        [("files", .obj ((List.range 10).map
            (fun d => (toString d, Json.arr ((pngNames fs d).map Json.str))))),
         ("total", .num (((List.range 10).map
            (fun d => (pngNames fs d).length)).sum))]) := by
  have hf : filesLoop fs = (List.range 10).map (fun e => (toString e, pngNames fs e)) := by
    rw [filesLoop, filesAux_eq]
    simp
  refine ⟨rfl, ?_⟩
  simp only [list_files, hf, List.map_map]
  rfl
